import Mathlib

/-!
Verification of the SnailTrail trace-ingestion core (timely-adapter):
the event classifier (`events_to_log_records`) and the structural peeler
(`peel_operators`), embedded shallowly as pure list-processing functions.

Timestamps are `std::time::Duration` values measured in nanoseconds and are
embedded as `Nat` (nanosecond count).  Worker ids, operator ids, sequence
numbers and channel ids (`usize` / `u64` in the source) are embedded as `Nat`;
the `isize` multiplicity is embedded as `Int`.
-/

namespace SnailTrail

/-- Whether a scheduling event marks the beginning or the end of a scheduling
interval (timely `StartStop`). -/
inductive StartStop
  | start
  | stop
  deriving DecidableEq, Repr

/-- Payload of a timely `Schedule` event, restricted to the fields the adapter
reads (`event.id`, `event.start_stop`). -/
structure ScheduleEvent where
  id : Nat
  start_stop : StartStop
  deriving DecidableEq, Repr

/-- Payload of a timely `Messages` event, restricted to the fields the adapter
reads (`is_send`, `channel`, `source`, `target`, `seq_no`). -/
structure MessagesEvent where
  is_send : Bool
  channel : Nat
  source : Nat
  target : Nat
  seq_no : Nat
  deriving DecidableEq, Repr

/-- Payload of a timely `Progress` event, restricted to the fields the adapter
reads (`is_send`, `source`, `channel`, `seq_no`). -/
structure ProgressEvent where
  is_send : Bool
  source : Nat
  channel : Nat
  seq_no : Nat
  deriving DecidableEq, Repr

/-- Payload of a timely `Operates` event: the hierarchical address (sequence of
child indices from the root) and the global operator id. -/
structure OperatesEvent where
  id : Nat
  addr : List Nat
  deriving DecidableEq, Repr

/-- The timely event variants the adapter inspects.  All event kinds that the
adapter does not pattern-match on (its `_ => None` arm) are collapsed into the
single constructor `Other`. -/
inductive TimelyEvent
  | Schedule (e : ScheduleEvent)
  | Messages (e : MessagesEvent)
  | Progress (e : ProgressEvent)
  | Operates (e : OperatesEvent)
  | Other
  deriving DecidableEq, Repr

/-- `logformat::ActivityType`, restricted to the variants the adapter emits. -/
inductive ActivityType
  | Scheduling
  | DataMessage
  | ControlMessage
  deriving DecidableEq, Repr

/-- `logformat::EventType`, restricted to the variants the adapter emits. -/
inductive EventType
  | Start
  | End
  | Sent
  | Received
  deriving DecidableEq, Repr

/-- `logformat::LogRecord`, with exactly the fields the adapter constructs. -/
structure LogRecord where
  timestamp : Nat
  local_worker : Nat
  activity_type : ActivityType
  event_type : EventType
  correlator_id : Option Nat
  remote_worker : Option Nat
  operator_id : Option Nat
  channel_id : Option Nat
  deriving DecidableEq, Repr

/-- The per-event classification performed inside `events_to_log_records`
for one raw tuple `(t, wid, x)` of an input batch whose retained capability
carries time `capTime` (the source's `*retained.time()`).  Returns the emitted
`(LogRecord, epoch, multiplicity)` triple, or `none` when the event is dropped
(the source's `None` arms). -/
def classifyEvent (t wid : Nat) (x : TimelyEvent) (capTime : Nat) :
    Option (LogRecord × Nat × Int) :=
  match x with
  | .Schedule e =>
      let event_type := if e.start_stop = StartStop.start then
        EventType.Start
      else
        EventType.End
      some
        ({ timestamp := t, local_worker := wid,
           activity_type := ActivityType.Scheduling, event_type := event_type,
           correlator_id := none, remote_worker := none,
           operator_id := some e.id, channel_id := none },
         capTime, 1)
  | .Messages e =>
      if e.source = e.target then
        none
      else
        let remote_worker := if e.is_send then some e.target else some e.source
        let event_type := if e.is_send then EventType.Sent else EventType.Received
        some
          ({ timestamp := t, local_worker := wid,
             activity_type := ActivityType.DataMessage, event_type := event_type,
             correlator_id := some e.seq_no, remote_worker := remote_worker,
             operator_id := none, channel_id := some e.channel },
           capTime, 1)
  | .Progress e =>
      if e.is_send = false ∧ e.source = wid then
        none
      else
        let event_type := if e.is_send then EventType.Sent else EventType.Received
        let remote_worker := if e.is_send then none else some e.source
        some
          ({ timestamp := t, local_worker := wid,
             activity_type := ActivityType.ControlMessage, event_type := event_type,
             correlator_id := some e.seq_no, remote_worker := remote_worker,
             operator_id := none, channel_id := some e.channel },
           capTime, 1)
  | _ => none

/-- One invocation of the `EpochalFlatMap` operator body on a single input
batch: the capability of the batch is retained (its time is `capTime`) and
every raw tuple of the batch is classified; dropped events produce nothing. -/
def events_to_log_records (capTime : Nat)
    (batch : List (Nat × Nat × TimelyEvent)) : List (LogRecord × Nat × Int) :=
  batch.filterMap fun e => classifyEvent e.1 e.2.1 e.2.2 capTime

/-- Outcome of the `flat_map` closure in `peel_operators` on one raw tuple:
it emits an `(addr, Some id)` tuple, silently skips the tuple, or hits the
source's `unreachable!()` macro, which aborts (panics) the worker. -/
inductive OperatesStep
  | emits (addr : List Nat) (id : Option Nat)
  | skips
  | fails
  deriving DecidableEq, Repr

/-- The `flat_map` closure of `peel_operators` on one raw tuple `(t, _, x)`:
if `t.as_nanos() == 1` (the bootstrap nanosecond) an `Operates` event becomes
the keyed tuple `(event.addr, Some(event.id))` and any other event hits
`unreachable!()`; at any other time the tuple is dropped with no output. -/
def operatesFlatMapStep (t : Nat) (x : TimelyEvent) : OperatesStep :=
  if t = 1 then
    match x with
    | .Operates e => OperatesStep.emits e.addr (some e.id)
    | _ => OperatesStep.fails
  else
    OperatesStep.skips

/-- The `operates` collection of `peel_operators`: the keyed tuples produced
by `operatesFlatMapStep` over the raw stream.  (On the `fails` outcome the
real operator panics and produces nothing; this list collects the emitted
tuples of the non-panicking runs.) -/
def operatesOf (events : List (Nat × Nat × TimelyEvent)) :
    List (List Nat × Option Nat) :=
  events.filterMap fun e =>
    match operatesFlatMapStep e.1 e.2.2 with
    | OperatesStep.emits addr i => some (addr, i)
    | _ => none

/-- Rust `Vec::pop` dropping the last element of an address (a no-op on the
empty address, exactly as `Vec::pop` on an empty vector). -/
def popAddr (addr : List Nat) : List Nat :=
  addr.dropLast

/-- The `peel_addrs` collection: every declared address with its last element
popped. -/
def peel_addrs (ops : List (List Nat × Option Nat)) : List (List Nat) :=
  ops.map fun p => popAddr p.1

/-- The `peel_ids` collection: semijoin `operates` with `peel_addrs` on the
address key, project the id, and apply `distinct`. -/
def peel_ids (ops : List (List Nat × Option Nat)) : List (Option Nat) :=
  ((ops.filter fun p => decide (p.1 ∈ peel_addrs ops)).map fun p => p.2).dedup

/-- The final step of `peel_operators`: key each record by its `operator_id`,
antijoin with `peel_ids`, and drop the key again. -/
def peel_records (records : List LogRecord) (ids : List (Option Nat)) :
    List LogRecord :=
  (((records.map fun x => (x.operator_id, x)).filter
      fun p => decide (p.1 ∉ ids)).map fun p => p.2)

/-- The whole `peel_operators` pipeline: build `operates` from the raw stream,
derive `peel_ids`, and antijoin the record collection against it. -/
def peel_operators (records : List LogRecord)
    (events : List (Nat × Nat × TimelyEvent)) : List LogRecord :=
  peel_records records (peel_ids (operatesOf events))

/-- Whether a timely event is an `Operates` declaration. -/
def TimelyEvent.isOperates : TimelyEvent → Bool
  | .Operates _ => true
  | _ => false

/-- The relation the specification uses to define an encompassing operator:
`p` is the parent (by address) of at least one other declared operator,
i.e. some distinct declared tuple has an address whose last element removed
equals the address of `p`. -/
def parentOfSomeOther (ops : List (List Nat × Option Nat))
    (p : List Nat × Option Nat) : Prop :=
  ∃ q, q ∈ ops ∧ q ≠ p ∧ p.1 = popAddr q.1

instance (ops : List (List Nat × Option Nat)) (p : List Nat × Option Nat) :
    Decidable (parentOfSomeOther ops p) :=
  inferInstanceAs (Decidable (∃ q, q ∈ ops ∧ q ≠ p ∧ p.1 = popAddr q.1))

/-- The record the classifier produces for a `Schedule` start of operator 3 on
worker 0 logged at nanosecond 5 (used as a concrete evaluation point). -/
def sampleStartRecord : LogRecord :=
  { timestamp := 5, local_worker := 0,
    activity_type := ActivityType.Scheduling, event_type := EventType.Start,
    correlator_id := none, remote_worker := none,
    operator_id := some 3, channel_id := none }

/-- A concrete `Scheduling` record attributed to operator 1. -/
def sampleSchedRecord : LogRecord :=
  { timestamp := 1, local_worker := 0,
    activity_type := ActivityType.Scheduling, event_type := EventType.Start,
    correlator_id := none, remote_worker := none,
    operator_id := some 1, channel_id := none }

/-- A concrete `DataMessage` record, which carries no `operator_id`. -/
def sampleMsgRecord : LogRecord :=
  { timestamp := 1, local_worker := 0,
    activity_type := ActivityType.DataMessage, event_type := EventType.Sent,
    correlator_id := some 7, remote_worker := some 1,
    operator_id := none, channel_id := some 3 }

/-- A concrete bootstrap topology: root operator 0 at address `[]`, operator 1
at `[0]`, operator 2 at `[0, 1]`, all declared at the bootstrap nanosecond. -/
def sampleTopology : List (Nat × Nat × TimelyEvent) :=
  [(1, 0, TimelyEvent.Operates ⟨0, []⟩),
   (1, 0, TimelyEvent.Operates ⟨1, [0]⟩),
   (1, 0, TimelyEvent.Operates ⟨2, [0, 1]⟩)]

/-! ## Helper lemmas -/

/-- The map/antijoin/map composition of `peel_records` is an ordinary filter
on the `operator_id` field. -/
lemma peel_records_eq_filter (records : List LogRecord)
    (ids : List (Option Nat)) :
    peel_records records ids =
      records.filter fun x => decide (x.operator_id ∉ ids) := by
  induction records with
  | nil => rfl
  | cons x xs ih =>
      unfold peel_records at ih ⊢
      simp only [List.map_cons, List.filter_cons]
      by_cases hmem : x.operator_id ∉ ids
      · rw [if_pos (by simpa using hmem), if_pos (by simpa using hmem),
          List.map_cons, ih]
      · rw [if_neg (by simpa using hmem), if_neg (by simpa using hmem), ih]

/-- Membership in `peel_ids`: an id is peeled exactly when some declared tuple
carries it and its address is the popped address of some declared tuple. -/
lemma mem_peel_ids (ops : List (List Nat × Option Nat)) (i : Option Nat) :
    i ∈ peel_ids ops ↔
      ∃ p, p ∈ ops ∧ p.2 = i ∧ ∃ q, q ∈ ops ∧ p.1 = popAddr q.1 := by
  unfold peel_ids peel_addrs
  simp only [List.mem_dedup, List.mem_map, List.mem_filter, decide_eq_true_eq]
  constructor
  · rintro ⟨p, ⟨hp, q, hq, hpq⟩, hpi⟩
    exact ⟨p, hp, hpi, q, hq, hpq.symm⟩
  · rintro ⟨p, hp, hpi, q, hq, hpq⟩
    exact ⟨p, ⟨hp, q, hq, hpq.symm⟩, hpi⟩

/-- When the `flat_map` closure emits a tuple, the id component is always of
the form `Some id`. -/
lemma operatesFlatMapStep_emits_some (t : Nat) (x : TimelyEvent)
    (a : List Nat) (i : Option Nat)
    (h : operatesFlatMapStep t x = OperatesStep.emits a i) : ∃ n, i = some n := by
  unfold operatesFlatMapStep at h
  by_cases ht : t = 1
  · rw [if_pos ht] at h
    cases x with
    | Operates e =>
        simp only [OperatesStep.emits.injEq] at h
        exact ⟨e.id, h.2.symm⟩
    | Schedule e => exact OperatesStep.noConfusion h
    | Messages e => exact OperatesStep.noConfusion h
    | Progress e => exact OperatesStep.noConfusion h
    | Other => exact OperatesStep.noConfusion h
  · rw [if_neg ht] at h
    exact OperatesStep.noConfusion h

/-- Every tuple of the `operates` collection carries a `Some id` value. -/
lemma operatesOf_snd_ne_none (events : List (Nat × Nat × TimelyEvent)) :
    ∀ p ∈ operatesOf events, p.2 ≠ none := by
  intro p hp
  unfold operatesOf at hp
  rw [List.mem_filterMap] at hp
  obtain ⟨e, -, hfe⟩ := hp
  rcases hstep : operatesFlatMapStep e.1 e.2.2 with _ | _ | _ <;> rw [hstep] at hfe
  case emits addr i =>
    obtain ⟨n, rfl⟩ := operatesFlatMapStep_emits_some e.1 e.2.2 addr i hstep
    cases hfe
    simp
  all_goals cases hfe

/-- The key `None` never occurs among the peeled ids, so message records are
never matched by the antijoin. -/
lemma none_not_mem_peel_ids (events : List (Nat × Nat × TimelyEvent)) :
    none ∉ peel_ids (operatesOf events) := by
  intro hmem
  rw [mem_peel_ids] at hmem
  obtain ⟨p, hp, hp2, -⟩ := hmem
  exact operatesOf_snd_ne_none events p hp hp2

/-! ## Claim theorems -/

/-- Claim C1, counterexample: a `Schedule` start event logged at nanosecond 5
arriving under a retained capability at time 1 yields a record whose
`timestamp` field is the raw event time 5, while the epoch keying the output
triple is the capability time 1 — so the record timestamp does not equal the
retained epoch time. -/
theorem c1_counterexample :
    classifyEvent 5 0 (TimelyEvent.Schedule ⟨3, StartStop.start⟩) 1 =
      some (sampleStartRecord, 1, 1) ∧
    sampleStartRecord.timestamp = 5 ∧ (5 : Nat) ≠ 1 := by
  refine ⟨?_, rfl, by decide⟩
  rfl

/-- Claim C1, amended: every record the classifier emits carries the raw
event's own timestamp in its `timestamp` field, and the retained epoch
capability's time is used only as the epoch component keying the output
triple. -/
theorem c1_timestamp_is_raw_event_time (t wid capTime : Nat) (x : TimelyEvent)
    (rec : LogRecord) (epoch : Nat) (m : Int)
    (h : classifyEvent t wid x capTime = some (rec, epoch, m)) :
    rec.timestamp = t ∧ epoch = capTime := by
  cases x with
  | Schedule e =>
      simp only [classifyEvent, Option.some.injEq, Prod.mk.injEq] at h
      obtain ⟨hrec, hep, -⟩ := h
      subst hrec
      exact ⟨rfl, hep.symm⟩
  | Messages e =>
      by_cases hst : e.source = e.target
      · simp [classifyEvent, hst] at h
      · simp only [classifyEvent, if_neg hst, Option.some.injEq,
          Prod.mk.injEq] at h
        obtain ⟨hrec, hep, -⟩ := h
        subst hrec
        exact ⟨rfl, hep.symm⟩
  | Progress e =>
      by_cases hc : e.is_send = false ∧ e.source = wid
      · simp [classifyEvent, hc] at h
      · simp only [classifyEvent, if_neg hc, Option.some.injEq,
          Prod.mk.injEq] at h
        obtain ⟨hrec, hep, -⟩ := h
        subst hrec
        exact ⟨rfl, hep.symm⟩
  | Operates e => simp [classifyEvent] at h
  | Other => simp [classifyEvent] at h

/-- Witness for C1 at a concrete input. -/
theorem c1_witness : sampleStartRecord.timestamp = 5 ∧ (1 : Nat) = 1 :=
  c1_timestamp_is_raw_event_time 5 0 1
    (TimelyEvent.Schedule ⟨3, StartStop.start⟩) sampleStartRecord 1 1 rfl

/-- Claim C2, counterexample: with the single declaration of a root operator
at the empty address, popping the empty address yields the empty address
again, so the root id 42 enters `peel_ids` although no other declared operator
has it as a parent. -/
theorem c2_counterexample :
    some 42 ∈ peel_ids [([], some 42)] ∧
    ¬ ∃ p, p ∈ [(([] : List Nat), some 42)] ∧ p.2 = some 42 ∧
        parentOfSomeOther [([], some 42)] p := by
  decide

/-- Claim C2, amended: an id is in `peel_ids` iff some declared tuple carries
it and that tuple's address equals some declared tuple's address with its last
element removed — where that declared tuple may be the operator itself when
its address is empty (popping the empty address is the identity); whenever
every declared address is nonempty this coincides with the original claim,
i.e. with being the parent of at least one other declared operator. -/
theorem c2_peel_ids_characterization (ops : List (List Nat × Option Nat))
    (i : Option Nat) :
    (i ∈ peel_ids ops ↔
      ∃ p, p ∈ ops ∧ p.2 = i ∧ ∃ q, q ∈ ops ∧ p.1 = popAddr q.1) ∧
    ((∀ p, p ∈ ops → p.1 ≠ []) →
      (i ∈ peel_ids ops ↔ ∃ p, p ∈ ops ∧ p.2 = i ∧ parentOfSomeOther ops p)) := by
  refine ⟨mem_peel_ids ops i, fun hne => ?_⟩
  rw [mem_peel_ids]
  constructor
  · rintro ⟨p, hp, hpi, q, hq, hpq⟩
    refine ⟨p, hp, hpi, q, hq, fun hqp => ?_, hpq⟩
    subst hqp
    have hne2 : q.1 ≠ [] := hne q hq
    have hlen : q.1.length = q.1.length - 1 := by
      conv_lhs => rw [hpq]
      exact List.length_dropLast q.1
    have hpos : 0 < q.1.length := List.length_pos.mpr hne2
    omega
  · rintro ⟨p, hp, hpi, q, hq, -, hpq⟩
    exact ⟨p, hp, hpi, q, hq, hpq⟩

/-- Witness for C2 at a concrete topology. -/
theorem c2_witness :
    (some 1 ∈ peel_ids [([0], some 1), ([0, 1], some 2)] ↔
      ∃ p, p ∈ [([0], some 1), ([0, 1], some 2)] ∧ p.2 = some 1 ∧
        parentOfSomeOther [([0], some 1), ([0, 1], some 2)] p) :=
  (c2_peel_ids_characterization [([0], some 1), ([0, 1], some 2)] (some 1)).2
    (by decide)

/-- Claim C4: the structural peeling of a record collection is exactly the
input minus the records whose `operator_id` is among the peeled ids, and every
record with no `operator_id` (message records) passes through. -/
theorem c4_antijoin_removes_exactly_peel_ids (records : List LogRecord)
    (events : List (Nat × Nat × TimelyEvent)) :
    peel_operators records events =
      records.filter
        (fun x => decide (x.operator_id ∉ peel_ids (operatesOf events))) ∧
    ∀ x, x ∈ records → x.operator_id = none →
      x ∈ peel_operators records events := by
  constructor
  · exact peel_records_eq_filter records (peel_ids (operatesOf events))
  · intro x hx hid
    unfold peel_operators
    rw [peel_records_eq_filter, List.mem_filter]
    refine ⟨hx, ?_⟩
    rw [decide_eq_true_eq, hid]
    exact none_not_mem_peel_ids events

/-- Witness for C4 at a concrete record collection and topology. -/
theorem c4_witness :
    sampleMsgRecord ∈
      peel_operators [sampleSchedRecord, sampleMsgRecord] sampleTopology :=
  (c4_antijoin_removes_exactly_peel_ids
      [sampleSchedRecord, sampleMsgRecord] sampleTopology).2
    sampleMsgRecord (by decide) rfl

/-- Claim C5: a `Messages` event whose source equals its target, and a
`Progress` event that is a receive whose source is the reporting worker,
produce no record at all. -/
theorem c5_local_events_dropped (t wid capTime : Nat) :
    (∀ e : MessagesEvent, e.source = e.target →
        classifyEvent t wid (TimelyEvent.Messages e) capTime = none) ∧
    (∀ p : ProgressEvent, p.is_send = false → p.source = wid →
        classifyEvent t wid (TimelyEvent.Progress p) capTime = none) := by
  constructor
  · intro e hst
    simp [classifyEvent, hst]
  · intro p h1 h2
    simp [classifyEvent, h1, h2]

/-- Witness for C5 at concrete events. -/
theorem c5_witness :
    classifyEvent 0 0 (TimelyEvent.Messages ⟨true, 0, 1, 1, 0⟩) 0 = none ∧
    classifyEvent 0 0 (TimelyEvent.Progress ⟨false, 0, 0, 0⟩) 0 = none :=
  ⟨(c5_local_events_dropped 0 0 0).1 ⟨true, 0, 1, 1, 0⟩ rfl,
   (c5_local_events_dropped 0 0 0).2 ⟨false, 0, 0, 0⟩ rfl rfl⟩

/-- Claim C6: emitted message records follow the per-event-kind table —
`Messages` yields a `DataMessage` with `correlator_id = seq_no`, `Sent` with
`remote_worker = target` when `is_send`, `Received` with
`remote_worker = source` otherwise; `Progress` yields a `ControlMessage` with
`correlator_id = seq_no`, `Sent` with `remote_worker = None` when `is_send`,
`Received` with `remote_worker = source` otherwise. -/
theorem c6_message_table (t wid capTime : Nat) :
    (∀ e : MessagesEvent, e.source ≠ e.target →
      classifyEvent t wid (TimelyEvent.Messages e) capTime =
        some
          ({ timestamp := t, local_worker := wid,
             activity_type := ActivityType.DataMessage,
             event_type :=
               if e.is_send then EventType.Sent else EventType.Received,
             correlator_id := some e.seq_no,
             remote_worker := some (if e.is_send then e.target else e.source),
             operator_id := none, channel_id := some e.channel },
           capTime, 1)) ∧
    (∀ p : ProgressEvent, p.is_send = true →
      classifyEvent t wid (TimelyEvent.Progress p) capTime =
        some
          ({ timestamp := t, local_worker := wid,
             activity_type := ActivityType.ControlMessage,
             event_type := EventType.Sent,
             correlator_id := some p.seq_no, remote_worker := none,
             operator_id := none, channel_id := some p.channel },
           capTime, 1)) ∧
    (∀ p : ProgressEvent, p.is_send = false → p.source ≠ wid →
      classifyEvent t wid (TimelyEvent.Progress p) capTime =
        some
          ({ timestamp := t, local_worker := wid,
             activity_type := ActivityType.ControlMessage,
             event_type := EventType.Received,
             correlator_id := some p.seq_no, remote_worker := some p.source,
             operator_id := none, channel_id := some p.channel },
           capTime, 1)) := by
  refine ⟨fun e hst => ?_, fun p hp => ?_, fun p hp hs => ?_⟩
  · cases hsend : e.is_send <;> simp [classifyEvent, hst, hsend]
  · simp [classifyEvent, hp]
  · simp [classifyEvent, hp, hs]

/-- Witness for C6 at concrete events. -/
theorem c6_witness :
    classifyEvent 2 0 (TimelyEvent.Messages ⟨true, 3, 0, 1, 7⟩) 5 =
      some
        ({ timestamp := 2, local_worker := 0,
           activity_type := ActivityType.DataMessage,
           event_type := EventType.Sent, correlator_id := some 7,
           remote_worker := some 1, operator_id := none,
           channel_id := some 3 },
         5, 1) ∧
    classifyEvent 2 1 (TimelyEvent.Progress ⟨true, 0, 4, 9⟩) 5 =
      some
        ({ timestamp := 2, local_worker := 1,
           activity_type := ActivityType.ControlMessage,
           event_type := EventType.Sent, correlator_id := some 9,
           remote_worker := none, operator_id := none,
           channel_id := some 4 },
         5, 1) ∧
    classifyEvent 2 1 (TimelyEvent.Progress ⟨false, 0, 4, 9⟩) 5 =
      some
        ({ timestamp := 2, local_worker := 1,
           activity_type := ActivityType.ControlMessage,
           event_type := EventType.Received, correlator_id := some 9,
           remote_worker := some 0, operator_id := none,
           channel_id := some 4 },
         5, 1) :=
  ⟨(c6_message_table 2 0 5).1 ⟨true, 3, 0, 1, 7⟩ (by decide),
   (c6_message_table 2 1 5).2.1 ⟨true, 0, 4, 9⟩ rfl,
   (c6_message_table 2 1 5).2.2 ⟨false, 0, 4, 9⟩ rfl (by decide)⟩

/-- Claim C7: every emitted record populates `operator_id` exactly when it is
a `Scheduling` record and `channel_id` exactly when it is a message record,
and `Scheduling` records carry neither `correlator_id` nor `remote_worker`. -/
theorem c7_field_population_invariants (t wid capTime : Nat) (x : TimelyEvent)
    (rec : LogRecord) (epoch : Nat) (m : Int)
    (h : classifyEvent t wid x capTime = some (rec, epoch, m)) :
    (rec.operator_id.isSome = true ↔
      rec.activity_type = ActivityType.Scheduling) ∧
    (rec.channel_id.isSome = true ↔
      rec.activity_type ≠ ActivityType.Scheduling) ∧
    (rec.activity_type = ActivityType.Scheduling →
      rec.correlator_id = none ∧ rec.remote_worker = none) := by
  cases x with
  | Schedule e =>
      simp only [classifyEvent, Option.some.injEq, Prod.mk.injEq] at h
      obtain ⟨hrec, -, -⟩ := h
      subst hrec
      simp
  | Messages e =>
      by_cases hst : e.source = e.target
      · simp [classifyEvent, hst] at h
      · simp only [classifyEvent, if_neg hst, Option.some.injEq,
          Prod.mk.injEq] at h
        obtain ⟨hrec, -, -⟩ := h
        subst hrec
        simp
  | Progress e =>
      by_cases hc : e.is_send = false ∧ e.source = wid
      · simp [classifyEvent, hc] at h
      · simp only [classifyEvent, if_neg hc, Option.some.injEq,
          Prod.mk.injEq] at h
        obtain ⟨hrec, -, -⟩ := h
        subst hrec
        simp
  | Operates e => simp [classifyEvent] at h
  | Other => simp [classifyEvent] at h

/-- Witness for C7 at a concrete input. -/
theorem c7_witness :
    (sampleStartRecord.operator_id.isSome = true ↔
      sampleStartRecord.activity_type = ActivityType.Scheduling) ∧
    (sampleStartRecord.channel_id.isSome = true ↔
      sampleStartRecord.activity_type ≠ ActivityType.Scheduling) ∧
    (sampleStartRecord.activity_type = ActivityType.Scheduling →
      sampleStartRecord.correlator_id = none ∧
        sampleStartRecord.remote_worker = none) :=
  c7_field_population_invariants 5 0 1
    (TimelyEvent.Schedule ⟨3, StartStop.start⟩) sampleStartRecord 1 1 rfl

/-- Claim C8, counterexample: an `Operates` event at nanosecond 2 (outside the
bootstrap epoch) is excluded from the `operates` collection, but its treatment
is the silent `skips` outcome — identical to that of an irrelevant event kind;
the peeling operator has no diagnostic output at all. -/
theorem c8_counterexample :
    operatesFlatMapStep 2 (TimelyEvent.Operates ⟨5, [0]⟩) =
      OperatesStep.skips ∧
    operatesFlatMapStep 2 TimelyEvent.Other = OperatesStep.skips ∧
    operatesOf [(2, 0, TimelyEvent.Operates ⟨5, [0]⟩)] = [] := by
  decide

/-- Claim C8, amended: an `Operates` event (indeed any event) observed outside
the bootstrap nanosecond is excluded from the `operates` collection — it never
influences `peel_ids` — but it is dropped silently, with no diagnostic
report. -/
theorem c8_outside_bootstrap_excluded_silently (t wid : Nat) (x : TimelyEvent)
    (events : List (Nat × Nat × TimelyEvent)) (h : t ≠ 1) :
    operatesFlatMapStep t x = OperatesStep.skips ∧
    operatesOf ((t, wid, x) :: events) = operatesOf events := by
  have hs : operatesFlatMapStep t x = OperatesStep.skips := by
    unfold operatesFlatMapStep
    rw [if_neg h]
  refine ⟨hs, ?_⟩
  unfold operatesOf
  rw [List.filterMap_cons]
  simp [hs]

/-- Witness for C8 at a concrete input. -/
theorem c8_witness :
    (2 : Nat) ≠ 1 ∧
    (operatesFlatMapStep 2 (TimelyEvent.Operates ⟨7, [0, 1]⟩) =
        OperatesStep.skips ∧
      operatesOf [(2, 0, TimelyEvent.Operates ⟨7, [0, 1]⟩)] = operatesOf []) :=
  ⟨by decide,
   c8_outside_bootstrap_excluded_silently 2 0
     (TimelyEvent.Operates ⟨7, [0, 1]⟩) [] (by decide)⟩

/-- Claim C9, counterexample: a `Schedule` event timestamped exactly at the
bootstrap nanosecond makes the peeling flat map hit the source's
`unreachable!()` arm, which panics — so a single raw event can fail the
pipeline. -/
theorem c9_counterexample :
    operatesFlatMapStep 1 (TimelyEvent.Schedule ⟨0, StartStop.start⟩) =
      OperatesStep.fails := by
  decide

/-- Claim C9, amended: classification ignores unrecognized variants silently
(the classifier has no failure outcome at all), and the peeling flat map fails
exactly on the events that are timestamped at the bootstrap nanosecond and are
not `Operates` declarations; on every other event neither stage fails. -/
theorem c9_failure_characterization (t wid capTime : Nat) (x : TimelyEvent) :
    classifyEvent t wid TimelyEvent.Other capTime = none ∧
    (operatesFlatMapStep t x = OperatesStep.fails ↔
      (t = 1 ∧ x.isOperates = false)) := by
  refine ⟨rfl, ?_⟩
  unfold operatesFlatMapStep
  by_cases h : t = 1
  · rw [if_pos h]
    cases x <;> simp [h, TimelyEvent.isOperates]
  · rw [if_neg h]
    simp [h]

/-- Claim C10: applying the antijoin step of the structural peeler twice with
the same peeled-id set yields the same collection as applying it once. -/
theorem c10_peel_idempotent (records : List LogRecord)
    (ids : List (Option Nat)) :
    peel_records (peel_records records ids) ids = peel_records records ids := by
  simp [peel_records_eq_filter, List.filter_filter]

end SnailTrail
